import Mathlib

/-!
Sorting library and benchmark driver of project-sorting.

A shallow embedding of `source/lib/sorting.h` (namespace `sa`) and of the
driver `source/main.cpp`, with the properties of the design document stated
over it.

* A range `[first, last)` of `DataType` is embedded as the list of its
  elements; a sorting routine `void f(first, last, cmp)` becomes a function
  from the contents before the call to the contents after it.
* The comparator is a function `α → α → Bool`.
-/

set_option autoImplicit false

/-! ## `source/lib/sorting.h` -/

namespace sa

/-- Contents of the range `[first, last)`, in address order. -/
abbrev Range (α : Type) : Type := List α

/-- The loop `for (size_t i{0}; i < n_digits; ++i) { ... }` of `sa::radix`
(sorting.h:66-93).  The first argument is the number of iterations still to
run, `n_digits - i`.  The body of the loop in the source holds comments only
(no bucket is created, no element is moved), so one pass leaves the range as
it is; the third component counts the passes executed. -/
def radix_digit_loop {α : Type} : Nat → Range α → Nat → Range α × Nat
  | 0, r, passes => (r, passes)
  | todo + 1, r, passes => radix_digit_loop todo r (passes + 1)

/-- The declaration `size_t n_digits{0};` of `sa::radix` (sorting.h:63): the
source never inspects the range to find the largest element. -/
def radix_n_digits {α : Type} (_r : Range α) : Nat := 0

/-- Body of `sa::radix` (sorting.h:59-94): the range after the call, paired
with the number of passes of the digit loop. -/
def radix_run {α : Type} (r : Range α) : Range α × Nat :=
  radix_digit_loop (radix_n_digits r - 0) r 0

/-- `sa::radix(first, last, cmp)` (sorting.h:59-94); the comparator
parameter is unnamed and unused in the source. -/
def radix {α : Type} (_cmp : α → α → Bool) (r : Range α) : Range α :=
  (radix_run r).1

/-- Number of passes of the digit loop executed by `sa::radix`. -/
def radix_passes {α : Type} (r : Range α) : Nat :=
  (radix_run r).2

/-- `sa::insertion(first, last, cmp)` (sorting.h:99-102).  The body is the
single comment `// TODO`: nothing is read, compared or written. -/
def insertion {α : Type} (_cmp : α → α → Bool) (r : Range α) : Range α := r

/-- `sa::selection(first, last, cmp)` (sorting.h:106-109), body `// TODO`. -/
def selection {α : Type} (_cmp : α → α → Bool) (r : Range α) : Range α := r

/-- `sa::bubble(first, last, cmp)` (sorting.h:113-116), body `// TODO`. -/
def bubble {α : Type} (_cmp : α → α → Bool) (r : Range α) : Range α := r

/-- `sa::shell(first, last, cmp)` (sorting.h:120-123), body `// TODO`. -/
def shell {α : Type} (_cmp : α → α → Bool) (r : Range α) : Range α := r

/-- `sa::merge(first, last, cmp)` (sorting.h:127-130), body `// TODO`. -/
def merge {α : Type} (_cmp : α → α → Bool) (r : Range α) : Range α := r

/-- `sa::quick(first, last, comp)` (sorting.h:135-138), body `// TODO`. -/
def quick {α : Type} (_comp : α → α → Bool) (r : Range α) : Range α := r

/-! ### Vocabulary of the properties -/

/-- A comparator is a strict weak ordering: irreflexive, transitive, and
incomparability is transitive. -/
def StrictWeakOrder {α : Type} (cmp : α → α → Bool) : Prop :=
  (∀ a, cmp a a = false) ∧
  (∀ a b c, cmp a b = true → cmp b c = true → cmp a c = true) ∧
  (∀ a b c, cmp a b = false → cmp b a = false → cmp b c = false → cmp c b = false →
    cmp a c = false ∧ cmp c a = false)

/-- The range is non-decreasing under `cmp`: for all positions `i < j`,
`cmp out[j] out[i]` is false. -/
def NonDecreasing {α : Type} (cmp : α → α → Bool) (out : Range α) : Prop :=
  ∀ i j : Fin out.length, i < j → cmp (out.get j) (out.get i) = false

instance {α : Type} (cmp : α → α → Bool) (out : Range α) : Decidable (NonDecreasing cmp out) :=
  inferInstanceAs (Decidable (∀ i j : Fin out.length, i < j → cmp (out.get j) (out.get i) = false))

/-- The "less than" comparator on natural numbers. -/
def nat_less (a b : Nat) : Bool := decide (a < b)

/-- Comparator on `(key, original index)` pairs that looks at the key only. -/
def by_key {κ : Type} (cmp : κ → κ → Bool) (a b : κ × Nat) : Bool :=
  cmp a.1 b.1

/-- The elements of `r` whose key is `k`, in the order they have in `r`. -/
def with_key {κ : Type} [DecidableEq κ] (k : κ) (r : Range (κ × Nat)) : Range (κ × Nat) :=
  r.filter (fun e => decide (e.1 = k))

/-- Elements with equal keys stand in `out` in the same relative order as
in `inp`. -/
def KeepsEqualKeyOrder {κ : Type} [DecidableEq κ] (inp out : Range (κ × Nat)) : Prop :=
  ∀ k : κ, with_key k out = with_key k inp

end sa

/-! ## `source/main.cpp` -/

namespace Bench

/-! ### Single-precision arithmetic used by `sample_step`

`sample_step` divides in `float`.  The values that occur are non-negative,
so the model covers the non-negative finite binary32 numbers, written
`mant * 2 ^ exp`, with round-to-nearest, ties-to-even; a result that is not
a finite number (overflow, division by zero) is `none`. -/

/-- Number of binary digits of `n` (the first argument bounds the recursion;
`n` itself is always enough). -/
def bit_length : Nat → Nat → Nat
  | 0, _ => 0
  | fuel + 1, n => if n = 0 then 0 else bit_length fuel (n / 2) + 1

/-- Nearest natural number to `num / den`, a tie going to the even one. -/
def round_half_even (num den : Nat) : Nat :=
  let q := num / den
  let r := num % den
  if 2 * r < den then q else if den < 2 * r then q + 1 else if q % 2 = 0 then q else q + 1

/-- The fraction `num / den` divided by `2 ^ e`, as numerator and
denominator. -/
def scale (num den : Nat) (e : Int) : Nat × Nat :=
  match e with
  | Int.ofNat k => (num, den * 2 ^ k)
  | Int.negSucc k => (num * 2 ^ (k + 1), den)

/-- A non-negative finite binary32 number, of value `mant * 2 ^ exp`. -/
structure F32 where
  /-- Significand, below `2 ^ 24`. -/
  mant : Nat
  /-- Exponent of the unit in the last place, from `-149` to `104`. -/
  exp : Int
deriving DecidableEq, Repr

/-- Rounding of the non-negative rational `num / den` to binary32: 24
significant bits, exponents `-149 .. 104`, round-to-nearest-even. -/
def f32_round (num den : Nat) : Option F32 :=
  if den = 0 then none
  else if num = 0 then some ⟨0, 0⟩
  else
    let e1 : Int := (bit_length num num : Int) - (bit_length den den : Int) - 23
    let s1 := scale num den e1
    let e2 : Int := if 2 ^ 23 * s1.2 ≤ s1.1 then e1 else e1 - 1
    let e3 : Int := if e2 < -149 then -149 else e2
    let s := scale num den e3
    let m := round_half_even s.1 s.2
    let x : F32 := if m = 2 ^ 24 then ⟨2 ^ 23, e3 + 1⟩ else ⟨m, e3⟩
    if 104 < x.exp then none else some x

/-- Conversion of a `size_t` value to `float` (`static_cast<float>`). -/
def f32_of_size_t (n : Nat) : Option F32 := f32_round n 1

/-- Conversion of an `int` value to `float` (usual arithmetic conversion of
the divisor); a negative value is outside the model. -/
def f32_of_int (i : Int) : Option F32 :=
  if 0 ≤ i then f32_round i.toNat 1 else none

/-- The `float` division `a / b`: the exact quotient, rounded. -/
def f32_div (a b : F32) : Option F32 :=
  let s := scale a.mant b.mant (b.exp - a.exp)
  f32_round s.1 s.2

/-- Conversion of a `float` to `size_type` (`long int`, 64 bits): the
fractional part is dropped; a value that does not fit is `none`. -/
def f32_to_long (x : F32) : Option Int :=
  let v : Nat :=
    match x.exp with
    | Int.ofNat k => x.mant * 2 ^ k
    | Int.negSucc k => x.mant / 2 ^ (k + 1)
  if v < 2 ^ 63 then some (v : Int) else none

/-- Subtraction of two `size_t` values (64 bits, wrapping). -/
def size_t_sub (a b : Nat) : Nat := (a % 2 ^ 64 + 2 ^ 64 - b % 2 ^ 64) % 2 ^ 64

namespace RunningOptions

/-- `constexpr static size_t min_sample_sz{1000};` (main.cpp:54). -/
def min_sample_sz : Nat := 1000

/-- `constexpr static size_t max_sample_sz{1000000};` (main.cpp:55). -/
def max_sample_sz : Nat := 1000000

/-- `constexpr static int n_samples{25};` (main.cpp:56). -/
def n_samples : Int := 25

/-- `constexpr static short n_runs{5};` (main.cpp:57). -/
def n_runs : Nat := 5

/-- `RunningOptions::sample_step()` (main.cpp:59-61):
`return static_cast<float>(max_sample_sz - min_sample_sz) / (n_samples - 1);`
with the quotient converted to the return type `size_type`. -/
def sample_step : Option Int :=
  (f32_of_size_t (size_t_sub max_sample_sz min_sample_sz)).bind fun num =>
  (f32_of_int (n_samples - 1)).bind fun den =>
  (f32_div num den).bind f32_to_long

end RunningOptions

/-- Modelled from the spec: the `i`-th sample size, `min_sample_sz + i·step`
(design document, section 4.4).  The driver in main.cpp computes
`sample_step` and runs `ns` from `0` to `n_samples - 1` (main.cpp:90-93) but
does not contain the expression for the size itself. -/
def sample_size (i : Nat) : Option Int :=
  RunningOptions.sample_step.map fun step => (RunningOptions.min_sample_sz : Int) + i * step

/-! ### The comparator -/

/-- A value of `value_type` (`long int`, 64 bits, main.cpp:23). -/
def is_value_type (x : Int) : Prop := -2 ^ 63 ≤ x ∧ x < 2 ^ 63

instance (x : Int) : Decidable (is_value_type x) :=
  inferInstanceAs (Decidable (-2 ^ 63 ≤ x ∧ x < 2 ^ 63))

/-- Conversion of a `value_type` value to `int`: reduction modulo `2 ^ 32`
into `[-2 ^ 31, 2 ^ 31)`. -/
def to_int (x : Int) : Int := (x + 2 ^ 31) % 2 ^ 32 - 2 ^ 31

/-- `constexpr bool compare(const int &a, const int &b) { return (a < b); }`
(main.cpp:71), on `int` values. -/
def compare (a b : Int) : Bool := decide (a < b)

/-- The comparator as the driver applies it (main.cpp:105) to two elements
of `value_type`: each argument is bound to a `const int &` parameter, hence
converted to `int` first. -/
def compare_elements (a b : Int) : Bool := compare (to_int a) (to_int b)

/-! ### The running mean (main.cpp:97-114) -/

/-- The update of main.cpp:113,
`elapsed_time_mean + (diff - elapsed_time_mean) / static_cast<double>(ct_run+1)`,
in exact rational arithmetic. -/
def mean_update (elapsed_time_mean : ℚ) (ct_run : Nat) (diff : ℚ) : ℚ :=
  elapsed_time_mean + (diff - elapsed_time_mean) / ((ct_run + 1 : Nat) : ℚ)

/-- The loop `for (auto ct_run(0); ct_run < n_runs; ++ct_run)` of
main.cpp:101-114 from the state `(ct_run, elapsed_time_mean)`; the list holds
the durations `diff` measured in the iterations still to run, in order. -/
def mean_loop : List ℚ → Nat → ℚ → ℚ
  | [], _, elapsed_time_mean => elapsed_time_mean
  | diff :: rest, ct_run, elapsed_time_mean =>
      mean_loop rest (ct_run + 1) (mean_update elapsed_time_mean ct_run diff)

/-- Value of `elapsed_time_mean` when the run loop is left: it starts from
`duration_t elapsed_time_mean{0.0}` (main.cpp:98) and `ct_run = 0`. -/
def elapsed_time_mean (diffs : List ℚ) : ℚ := mean_loop diffs 0 0

/-! ### The algorithm loop (main.cpp:96-115) -/

/-- Modelled from the spec: the Algorithm Registry `SortingCollection`, whose
class definition is not part of the sources: an ordered list of entries and
a cursor (design document, section 4.3). -/
structure SortingCollection (E : Type) where
  /-- The entries, in registration order. -/
  entries : List E
  /-- Position of the current entry. -/
  cursor : Nat

/-- Modelled from the spec: `has_ended()`, true when the cursor is past the
last entry. -/
def SortingCollection.has_ended {E : Type} (c : SortingCollection E) : Bool :=
  decide (c.entries.length ≤ c.cursor)

/-- Modelled from the spec: `next()`, the "advance" operation. -/
def SortingCollection.next {E : Type} (c : SortingCollection E) : SortingCollection E :=
  { c with cursor := c.cursor + 1 }

/-- State of the driver inside the algorithm loop: the registry and, for
each call `sorting(...)` made so far (main.cpp:105), the cursor position at
the time of the call. -/
structure LoopState (E : Type) where
  /-- The variable `sort_algs` of main.cpp:80. -/
  sort_algs : SortingCollection E
  /-- Cursor positions of the calls made, oldest first. -/
  calls : List Nat

/-- The run loop of main.cpp:101-114 seen from the registry: each iteration
makes one call `sorting(...)`; the first argument is the number of
iterations still to run. -/
def runs_loop {E : Type} : Nat → LoopState E → LoopState E
  | 0, s => s
  | todo + 1, s => runs_loop todo { s with calls := s.calls ++ [s.sort_algs.cursor] }

/-- One pass of the body of `while ( not sort_algs.has_ended() )`
(main.cpp:97-114): the mean is reset and the run loop executes.  The body
contains no call on `sort_algs`. -/
def alg_loop_body {E : Type} (s : LoopState E) : LoopState E :=
  runs_loop (RunningOptions.n_runs - 0) s

/-- The loop `while ( not sort_algs.has_ended() ) { ... }` (main.cpp:96-115),
allowed at most `fuel` evaluations of its condition: `some s` when the loop
is left in state `s`, `none` when it is still running. -/
def alg_loop {E : Type} : Nat → LoopState E → Option (LoopState E)
  | 0, _ => none
  | fuel + 1, s => if s.sort_algs.has_ended then some s else alg_loop fuel (alg_loop_body s)

/-- The registry of main.cpp:80, `sort_algs{insertion,selection}`, at its
first entry. -/
def main_sort_algs : SortingCollection String :=
  { entries := ["insertion", "selection"], cursor := 0 }

end Bench

/-! ## Properties of the sorting library -/

namespace sa

theorem nat_less_strictWeakOrder : StrictWeakOrder nat_less := by
  refine ⟨?_, ?_, ?_⟩
  · intro a
    simp [nat_less]
  · intro a b c
    simp only [nat_less, decide_eq_true_eq]
    omega
  · intro a b c
    simp only [nat_less, decide_eq_false_iff_not]
    omega

theorem radix_digit_loop_fst {α : Type} (todo : Nat) (r : Range α) (passes : Nat) :
    (radix_digit_loop todo r passes).1 = r := by
  induction todo generalizing passes with
  | zero => rfl
  | succ n ih => exact ih (passes + 1)

theorem radix_eq {α : Type} (cmp : α → α → Bool) (r : Range α) : radix cmp r = r :=
  radix_digit_loop_fst _ r 0

theorem radix_passes_eq {α : Type} (r : Range α) : radix_passes r = 0 := rfl

/-- C1 (evaluation of the code): `<` on the naturals is a strict weak
ordering, and on the reverse-sorted range `[2, 1]` each of `sa::insertion`,
`sa::selection`, `sa::bubble`, `sa::shell`, `sa::merge` and `sa::quick`
returns `[2, 1]`, which is not non-decreasing: `cmp(out[1], out[0])` is
true. -/
theorem comparison_sorts_leave_reversed_pair :
    StrictWeakOrder nat_less ∧
    (insertion nat_less [2, 1] = [2, 1] ∧ ¬ NonDecreasing nat_less (insertion nat_less [2, 1])) ∧
    (selection nat_less [2, 1] = [2, 1] ∧ ¬ NonDecreasing nat_less (selection nat_less [2, 1])) ∧
    (bubble nat_less [2, 1] = [2, 1] ∧ ¬ NonDecreasing nat_less (bubble nat_less [2, 1])) ∧
    (shell nat_less [2, 1] = [2, 1] ∧ ¬ NonDecreasing nat_less (shell nat_less [2, 1])) ∧
    (merge nat_less [2, 1] = [2, 1] ∧ ¬ NonDecreasing nat_less (merge nat_less [2, 1])) ∧
    (quick nat_less [2, 1] = [2, 1] ∧ ¬ NonDecreasing nat_less (quick nat_less [2, 1])) ∧
    nat_less ([2, 1].get ⟨1, by decide⟩) ([2, 1].get ⟨0, by decide⟩) = true :=
  ⟨nat_less_strictWeakOrder, ⟨rfl, by decide⟩, ⟨rfl, by decide⟩, ⟨rfl, by decide⟩,
    ⟨rfl, by decide⟩, ⟨rfl, by decide⟩, ⟨rfl, by decide⟩, by decide⟩

/-- C2 (evaluation of the code): on the range `[2, 1]` of non-negative
integers `sa::radix` runs no pass of its digit loop and returns `[2, 1]`,
whatever the comparator, while sorting by numeric value gives `[1, 2]`. -/
theorem radix_leaves_reversed_pair (cmp : Nat → Nat → Bool) :
    radix cmp [2, 1] = [2, 1] ∧ radix_passes [2, 1] = 0 ∧
    List.insertionSort (fun a b : Nat => a ≤ b) [2, 1] = [1, 2] ∧
    radix cmp [2, 1] ≠ List.insertionSort (fun a b : Nat => a ≤ b) [2, 1] := by
  refine ⟨rfl, rfl, by decide, ?_⟩
  rw [radix_eq]
  decide

/-- C3: for each of `sa::insertion`, `sa::selection`, `sa::bubble`,
`sa::shell`, `sa::merge` and `sa::quick`, every range and every comparator,
the range after the call has the same multiset of elements as the input and
the same length. -/
theorem comparison_sorts_permute {α : Type} (cmp : α → α → Bool) (r : Range α) :
    ((insertion cmp r : Multiset α) = (r : Multiset α) ∧ (insertion cmp r).length = r.length) ∧
    ((selection cmp r : Multiset α) = (r : Multiset α) ∧ (selection cmp r).length = r.length) ∧
    ((bubble cmp r : Multiset α) = (r : Multiset α) ∧ (bubble cmp r).length = r.length) ∧
    ((shell cmp r : Multiset α) = (r : Multiset α) ∧ (shell cmp r).length = r.length) ∧
    ((merge cmp r : Multiset α) = (r : Multiset α) ∧ (merge cmp r).length = r.length) ∧
    ((quick cmp r : Multiset α) = (r : Multiset α) ∧ (quick cmp r).length = r.length) :=
  ⟨⟨rfl, rfl⟩, ⟨rfl, rfl⟩, ⟨rfl, rfl⟩, ⟨rfl, rfl⟩, ⟨rfl, rfl⟩, ⟨rfl, rfl⟩⟩

/-- C4: each of the seven algorithms leaves the empty range and every
single-element range unchanged, and on such a range the digit loop of
`sa::radix` executes zero passes. -/
theorem small_ranges_unchanged {α : Type} (cmp : α → α → Bool) (a : α) :
    (radix cmp ([] : Range α) = [] ∧ radix cmp [a] = [a]) ∧
    (radix_passes ([] : Range α) = 0 ∧ radix_passes [a] = 0) ∧
    (insertion cmp ([] : Range α) = [] ∧ insertion cmp [a] = [a]) ∧
    (selection cmp ([] : Range α) = [] ∧ selection cmp [a] = [a]) ∧
    (bubble cmp ([] : Range α) = [] ∧ bubble cmp [a] = [a]) ∧
    (shell cmp ([] : Range α) = [] ∧ shell cmp [a] = [a]) ∧
    (merge cmp ([] : Range α) = [] ∧ merge cmp [a] = [a]) ∧
    (quick cmp ([] : Range α) = [] ∧ quick cmp [a] = [a]) :=
  ⟨⟨rfl, rfl⟩, ⟨rfl, rfl⟩, ⟨rfl, rfl⟩, ⟨rfl, rfl⟩, ⟨rfl, rfl⟩, ⟨rfl, rfl⟩, ⟨rfl, rfl⟩,
    ⟨rfl, rfl⟩⟩

/-- C5: on a range `r` already in ascending order under the comparator, each
of the six comparison algorithms returns `r` position by position, and on a
range `n` of naturals in numeric ascending order so does `sa::radix`; hence
a second application changes nothing. -/
theorem sorted_range_unchanged {α : Type} (cmp : α → α → Bool) (r : Range α)
    (_hr : NonDecreasing cmp r) (cmpN : Nat → Nat → Bool) (n : Range Nat)
    (_hn : NonDecreasing nat_less n) :
    (radix cmpN n = n ∧ radix cmpN (radix cmpN n) = radix cmpN n) ∧
    (insertion cmp r = r ∧ insertion cmp (insertion cmp r) = insertion cmp r) ∧
    (selection cmp r = r ∧ selection cmp (selection cmp r) = selection cmp r) ∧
    (bubble cmp r = r ∧ bubble cmp (bubble cmp r) = bubble cmp r) ∧
    (shell cmp r = r ∧ shell cmp (shell cmp r) = shell cmp r) ∧
    (merge cmp r = r ∧ merge cmp (merge cmp r) = merge cmp r) ∧
    (quick cmp r = r ∧ quick cmp (quick cmp r) = quick cmp r) :=
  ⟨⟨rfl, rfl⟩, ⟨rfl, rfl⟩, ⟨rfl, rfl⟩, ⟨rfl, rfl⟩, ⟨rfl, rfl⟩, ⟨rfl, rfl⟩, ⟨rfl, rfl⟩⟩

/-- Instance of `sorted_range_unchanged` at the ascending range `[1, 2, 2, 5]`. -/
theorem sorted_range_unchanged_witness :
    NonDecreasing nat_less [1, 2, 2, 5] ∧
    (radix nat_less [1, 2, 2, 5] = [1, 2, 2, 5] ∧
      radix nat_less (radix nat_less [1, 2, 2, 5]) = radix nat_less [1, 2, 2, 5]) ∧
    (insertion nat_less [1, 2, 2, 5] = [1, 2, 2, 5] ∧
      insertion nat_less (insertion nat_less [1, 2, 2, 5]) = insertion nat_less [1, 2, 2, 5]) ∧
    (selection nat_less [1, 2, 2, 5] = [1, 2, 2, 5] ∧
      selection nat_less (selection nat_less [1, 2, 2, 5]) = selection nat_less [1, 2, 2, 5]) ∧
    (bubble nat_less [1, 2, 2, 5] = [1, 2, 2, 5] ∧
      bubble nat_less (bubble nat_less [1, 2, 2, 5]) = bubble nat_less [1, 2, 2, 5]) ∧
    (shell nat_less [1, 2, 2, 5] = [1, 2, 2, 5] ∧
      shell nat_less (shell nat_less [1, 2, 2, 5]) = shell nat_less [1, 2, 2, 5]) ∧
    (merge nat_less [1, 2, 2, 5] = [1, 2, 2, 5] ∧
      merge nat_less (merge nat_less [1, 2, 2, 5]) = merge nat_less [1, 2, 2, 5]) ∧
    (quick nat_less [1, 2, 2, 5] = [1, 2, 2, 5] ∧
      quick nat_less (quick nat_less [1, 2, 2, 5]) = quick nat_less [1, 2, 2, 5]) :=
  ⟨by decide,
    sorted_range_unchanged nat_less [1, 2, 2, 5] (by decide) nat_less [1, 2, 2, 5] (by decide)⟩

/-- C6: for `sa::insertion`, `sa::bubble` and `sa::merge`, on every range of
`(key, original index)` pairs compared by key only, the elements of each key
stand in the output in the same relative order as in the input. -/
theorem stable_sorts_keep_equal_key_order {κ : Type} [DecidableEq κ] (cmp : κ → κ → Bool)
    (r : Range (κ × Nat)) :
    KeepsEqualKeyOrder r (insertion (by_key cmp) r) ∧
    KeepsEqualKeyOrder r (bubble (by_key cmp) r) ∧
    KeepsEqualKeyOrder r (merge (by_key cmp) r) :=
  ⟨fun _ => rfl, fun _ => rfl, fun _ => rfl⟩

end sa

/-! ## Properties of the driver -/

namespace Bench

theorem round_half_even_of_dvd (num den : Nat) (hden : 0 < den) (h : den ∣ num) :
    round_half_even num den = num / den := by
  have hr : num % den = 0 := Nat.mod_eq_zero_of_dvd h
  simp [round_half_even, hr, hden]

theorem f32_round_samples :
    f32_round 1 3 = some ⟨11184811, -25⟩ ∧
    f32_round (2 ^ 24 + 1) 1 = some ⟨2 ^ 23, 1⟩ ∧
    f32_round (2 ^ 24 + 3) 1 = some ⟨2 ^ 23 + 2, 1⟩ ∧
    f32_round 1 0 = none := by
  refine ⟨by decide, by decide, by decide, by decide⟩

theorem sample_step_operands :
    f32_of_size_t (size_t_sub RunningOptions.max_sample_sz RunningOptions.min_sample_sz)
      = some ⟨999000 * 2 ^ 4, -4⟩ ∧
    f32_of_int (RunningOptions.n_samples - 1) = some ⟨24 * 2 ^ 19, -19⟩ ∧
    f32_div ⟨999000 * 2 ^ 4, -4⟩ ⟨24 * 2 ^ 19, -19⟩ = some ⟨41625 * 2 ^ 8, -8⟩ := by
  refine ⟨by decide, by decide, by decide⟩

theorem sample_step_eq : RunningOptions.sample_step = some 41625 := by decide

theorem sample_size_eq (i : Nat) : sample_size i = some (1000 + (i : Int) * 41625) := by
  simp [sample_size, sample_step_eq, RunningOptions.min_sample_sz]

/-- C7: with `min_sample_sz = 1000`, `max_sample_sz = 1000000` and
`n_samples = 25`, `sample_step()` returns `41625`, which is
`(max_sample_sz - min_sample_sz) / (n_samples - 1)` without remainder; the
sample sizes `min_sample_sz + i * sample_step()` start at `1000`, end at
`1000000` for `i = 24`, and each exceeds the one before by the step. -/
theorem sample_sizes_linear_scale :
    RunningOptions.sample_step = some 41625 ∧
    (41625 : Int) * (RunningOptions.n_samples - 1) =
      (RunningOptions.max_sample_sz : Int) - (RunningOptions.min_sample_sz : Int) ∧
    sample_size 0 = some 1000 ∧
    sample_size 24 = some 1000000 ∧
    (∀ i : Nat, ∃ a b : Int, sample_size i = some a ∧ sample_size (i + 1) = some b ∧
      a < b ∧ b - a = 41625) := by
  refine ⟨sample_step_eq, by decide, ?_, ?_, ?_⟩
  · rw [sample_size_eq]; rfl
  · rw [sample_size_eq]; rfl
  · intro i
    refine ⟨_, _, sample_size_eq i, sample_size_eq (i + 1), ?_, ?_⟩
    · push_cast; omega
    · push_cast; ring

/-- C8 (evaluation of the code): `2 ^ 32`, `1` and `0` are values of
`value_type`; the comparator applied to `(2 ^ 32, 1)` answers true although
`2 ^ 32 < 1` is false, and applied to `(0, 2 ^ 32)` answers false although
`0 < 2 ^ 32` is true, because `2 ^ 32` converts to the `int` value `0`. -/
theorem compare_narrows_elements :
    is_value_type (2 ^ 32) ∧ is_value_type 1 ∧ is_value_type 0 ∧
    to_int (2 ^ 32) = 0 ∧
    (compare_elements (2 ^ 32) 1 = true ∧ ¬ ((2 : Int) ^ 32 < 1)) ∧
    (compare_elements 0 (2 ^ 32) = false ∧ (0 : Int) < 2 ^ 32) := by
  refine ⟨by decide, by decide, by decide, by decide, ⟨by decide, by decide⟩,
    ⟨by decide, by decide⟩⟩

theorem to_int_of_int_range (x : Int) (hlo : -2 ^ 31 ≤ x) (hhi : x < 2 ^ 31) : to_int x = x := by
  unfold to_int
  omega

theorem mean_update_mul (m : ℚ) (ct : Nat) (d : ℚ) :
    ((ct + 1 : Nat) : ℚ) * mean_update m ct d = (ct : ℚ) * m + d := by
  unfold mean_update
  have h : ((ct + 1 : Nat) : ℚ) ≠ 0 := by positivity
  field_simp
  ring

theorem mean_loop_mul (ds : List ℚ) (ct : Nat) (m : ℚ) :
    ((ct + ds.length : Nat) : ℚ) * mean_loop ds ct m = (ct : ℚ) * m + ds.sum := by
  induction ds generalizing ct m with
  | nil => simp [mean_loop]
  | cons d rest ih =>
    have h := ih (ct + 1) (mean_update m ct d)
    rw [mean_update_mul] at h
    simp only [mean_loop, List.length_cons, List.sum_cons]
    have e : ct + (rest.length + 1) = ct + 1 + rest.length := by omega
    rw [e, h]
    ring

theorem mean_loop_append (xs ys : List ℚ) (ct : Nat) (m : ℚ) :
    mean_loop (xs ++ ys) ct m = mean_loop ys (ct + xs.length) (mean_loop xs ct m) := by
  induction xs generalizing ct m with
  | nil => simp [mean_loop]
  | cons d rest ih =>
    show mean_loop (rest ++ ys) (ct + 1) (mean_update m ct d)
      = mean_loop ys (ct + (rest.length + 1)) (mean_loop rest (ct + 1) (mean_update m ct d))
    rw [ih]
    congr 1
    omega

theorem mean_loop_reaches_take (diffs : List ℚ) (k : Nat) :
    elapsed_time_mean diffs
      = mean_loop (diffs.drop k) (0 + (diffs.take k).length) (elapsed_time_mean (diffs.take k)) := by
  unfold elapsed_time_mean
  rw [← mean_loop_append, List.take_append_drop]

theorem elapsed_time_mean_eq (ds : List ℚ) (hne : ds ≠ []) :
    elapsed_time_mean ds = ds.sum / (ds.length : ℚ) := by
  have h := mean_loop_mul ds 0 0
  have hl : (ds.length : ℚ) ≠ 0 := by
    have : 0 < ds.length := List.length_pos.mpr hne
    positivity
  unfold elapsed_time_mean
  rw [eq_div_iff hl]
  simpa [mul_comm] using h

/-- C9: in exact arithmetic, for a non-empty sequence of durations the
running-mean update started from `0` yields after every step `k` the
arithmetic mean of the first `k` durations (the value of the mean after `k`
iterations is `elapsed_time_mean` of the first `k` durations, see
`mean_loop_reaches_take`); after `n_runs = 5` runs it is the sum of the
five durations divided by `5`; it is non-negative when every duration is. -/
theorem running_mean_is_arithmetic_mean (diffs : List ℚ) (hne : diffs ≠ []) :
    (∀ k : Nat, 1 ≤ k → k ≤ diffs.length →
      elapsed_time_mean (diffs.take k) = (diffs.take k).sum / (k : ℚ)) ∧
    (diffs.length = RunningOptions.n_runs → elapsed_time_mean diffs = diffs.sum / 5) ∧
    ((∀ d ∈ diffs, 0 ≤ d) → 0 ≤ elapsed_time_mean diffs) := by
  refine ⟨?_, ?_, ?_⟩
  · intro k hk hle
    have hlen : (diffs.take k).length = k := by simp [hle]
    have hne2 : diffs.take k ≠ [] := by
      intro h
      rw [h] at hlen
      simp at hlen
      omega
    rw [elapsed_time_mean_eq _ hne2, hlen]
  · intro h5
    rw [elapsed_time_mean_eq _ hne, h5]
    simp [RunningOptions.n_runs]
  · intro hpos
    rw [elapsed_time_mean_eq _ hne]
    exact div_nonneg (List.sum_nonneg hpos) (by positivity)

/-- Instance of `running_mean_is_arithmetic_mean` at the five durations
`3, 1, 2, 4, 5`: the mean after three runs is `6 / 3`, after five runs
`15 / 5`, and it is non-negative. -/
theorem running_mean_is_arithmetic_mean_witness :
    ([3, 1, 2, 4, 5] : List ℚ) ≠ [] ∧
    elapsed_time_mean (([3, 1, 2, 4, 5] : List ℚ).take 3)
      = (([3, 1, 2, 4, 5] : List ℚ).take 3).sum / ((3 : Nat) : ℚ) ∧
    elapsed_time_mean [3, 1, 2, 4, 5] = ([3, 1, 2, 4, 5] : List ℚ).sum / 5 ∧
    0 ≤ elapsed_time_mean [3, 1, 2, 4, 5] :=
  ⟨by simp,
    (running_mean_is_arithmetic_mean [3, 1, 2, 4, 5] (by simp)).1 3 (by decide) (by decide),
    (running_mean_is_arithmetic_mean [3, 1, 2, 4, 5] (by simp)).2.1 rfl,
    (running_mean_is_arithmetic_mean [3, 1, 2, 4, 5] (by simp)).2.2 (by simp)⟩

theorem runs_loop_sort_algs {E : Type} (todo : Nat) (s : LoopState E) :
    (runs_loop todo s).sort_algs = s.sort_algs := by
  induction todo generalizing s with
  | zero => rfl
  | succ n ih => simp [runs_loop, ih]

theorem runs_loop_calls {E : Type} (todo : Nat) (s : LoopState E) :
    (runs_loop todo s).calls = s.calls ++ List.replicate todo s.sort_algs.cursor := by
  induction todo generalizing s with
  | zero => simp [runs_loop]
  | succ n ih => simp [runs_loop, ih, List.replicate_succ]

theorem alg_loop_body_sort_algs {E : Type} (s : LoopState E) :
    (alg_loop_body s).sort_algs = s.sort_algs :=
  runs_loop_sort_algs _ s

theorem iterate_body_sort_algs {E : Type} (k : Nat) (s : LoopState E) :
    (alg_loop_body^[k] s).sort_algs = s.sort_algs := by
  induction k generalizing s with
  | zero => rfl
  | succ n ih => rw [Function.iterate_succ_apply, ih, alg_loop_body_sort_algs]

theorem iterate_body_calls {E : Type} (k : Nat) (s : LoopState E) :
    (alg_loop_body^[k] s).calls =
      s.calls ++ List.replicate (RunningOptions.n_runs * k) s.sort_algs.cursor := by
  induction k generalizing s with
  | zero => simp
  | succ n ih =>
    rw [Function.iterate_succ_apply, ih, alg_loop_body_sort_algs]
    simp only [alg_loop_body, runs_loop_calls, Nat.sub_zero, List.append_assoc]
    rw [← List.replicate_add]
    congr 2
    ring

theorem alg_loop_none_of_not_ended {E : Type} (fuel : Nat) (s : LoopState E)
    (h : s.sort_algs.has_ended = false) : alg_loop fuel s = none := by
  induction fuel generalizing s with
  | zero => rfl
  | succ n ih =>
    simp only [alg_loop, h, Bool.false_eq_true, if_false]
    exact ih _ (by rw [alg_loop_body_sort_algs]; exact h)

theorem alg_loop_of_ended {E : Type} (fuel : Nat) (s : LoopState E)
    (h : s.sort_algs.has_ended = true) : alg_loop (fuel + 1) s = some s := by
  simp [alg_loop, h]

/-- C10 (evaluation of the code): from the registry of `main`
(`insertion`, `selection`, cursor at the first entry) the algorithm loop is
still running after any number of evaluations of its condition; after `k`
passes of the body the cursor is where it was, `has_ended()` is false, the
first entry position has received `5 * k` calls and the second none. -/
theorem alg_loop_never_advances :
    (∀ fuel : Nat, alg_loop fuel ⟨main_sort_algs, []⟩ = none) ∧
    (∀ k : Nat,
      (alg_loop_body^[k] ⟨main_sort_algs, []⟩).sort_algs.cursor = 0 ∧
      (alg_loop_body^[k] ⟨main_sort_algs, []⟩).sort_algs.has_ended = false ∧
      (alg_loop_body^[k] ⟨main_sort_algs, []⟩).calls.count 0 = 5 * k ∧
      (alg_loop_body^[k] ⟨main_sort_algs, []⟩).calls.count 1 = 0) := by
  refine ⟨fun fuel => alg_loop_none_of_not_ended fuel _ rfl, fun k => ?_⟩
  rw [iterate_body_sort_algs, iterate_body_calls]
  refine ⟨rfl, rfl, ?_, ?_⟩
  · simp [main_sort_algs, RunningOptions.n_runs]
  · simp [main_sort_algs, List.count_replicate]

end Bench
